import Mathlib

/-!
Shallow embedding of the client-side file upload manager of the projectpal
repository (source file src/lib/utils/file-uploader.ts) and proofs about it.

The uploader is a single class, FileUploader, holding an in-memory queue of
pending transfers.  The embedding below translates its pure computations
(retry delay, bandwidth throttle, queue sorting, the overall-progress
formula) into Lean functions and its stateful methods (addToQueue,
setPriority, pause, resume, cancel, processQueue, uploadWithRetry) into a
step function on an explicit state record.  Interaction with the external
storage API (supabase.storage.upload) is represented by an oracle giving the
outcome of each attempted transfer, and writes to the browser localStorage
are recorded as an explicit effect trace.  JavaScript numbers are modelled
as exact rationals extended with the IEEE special values.
-/

namespace ProjectPal

/-- JavaScript numbers as the uploader uses them: exact rationals plus the
IEEE special values Infinity, -Infinity and NaN.  Rounding of float64
arithmetic is not modelled; every formula below is the exact expression
written in the source. -/
inductive JSNum where
  | fin (q : ℚ)
  | posInf
  | negInf
  | nan
deriving DecidableEq

/-- JavaScript division a / b on (non-NaN) numbers: division by zero yields
NaN when the dividend is zero and a signed infinity otherwise. -/
def jsDiv (a b : ℚ) : JSNum :=
  if b = 0 then (if a = 0 then JSNum.nan else if 0 < a then JSNum.posInf else JSNum.negInf)
  else JSNum.fin (a / b)

/-- Multiplication of a JavaScript number by an exact rational constant
(used for the `* 100` in the overall-progress formula). -/
def jsMul (x : JSNum) (c : ℚ) : JSNum :=
  match x with
  | JSNum.fin a => JSNum.fin (a * c)
  | JSNum.posInf => if 0 < c then JSNum.posInf else if c = 0 then JSNum.nan else JSNum.negInf
  | JSNum.negInf => if 0 < c then JSNum.negInf else if c = 0 then JSNum.nan else JSNum.posInf
  | JSNum.nan => JSNum.nan

/-- The expression `(uploadedSize / totalSize) * 100` computed by saveState
and by the onDetailedProgress payloads of processQueue.  The source applies
it with no guard on `totalSize`. -/
def savedOverallProgress (uploadedSize totalSize : ℕ) : JSNum :=
  jsMul (jsDiv (uploadedSize : ℚ) (totalSize : ℚ)) 100

/-- UploadPriority from the source: the union type high | medium | low. -/
inductive Priority where
  | high
  | medium
  | low
deriving DecidableEq

/-- The two fields of the DOM File object that the uploader reads:
`name` (used by setPriority lookup) and `size` (byte count). -/
structure File where
  name : String
  size : ℕ
deriving DecidableEq

/-- QueueItem from the source (file-uploader.ts lines 27-32): the record
type of entries of the in-memory queue.  Its fields are exactly
file, path, priority and addedAt. -/
structure QueueItem where
  file : File
  path : String
  priority : Priority
  addedAt : ℕ
deriving DecidableEq

/-- The field names of the QueueItem record, in source order.  This mirrors
the TypeScript declaration literally so that claims about which data a
queue entry is tagged with can be stated. -/
def queueItemFields : List String :=
  ["file", "path", "priority", "addedAt"]

/-- Modelled from the spec: the glossary sentence says each upload-queue
entry is "tagged with a priority and retry count"; these are the two tags
that sentence requires an entry to carry. -/
def specTagFields : List String :=
  ["priority", "retryCount"]

/-- A JavaScript Error as the retry logic inspects it: only the message
string matters to the uploader (it compares it with the two literals
"Upload paused" and "Upload cancelled"). -/
structure JsError where
  message : String
deriving DecidableEq

/-- The resolved UploadOptions of a FileUploader instance (every field made
required by the constructor defaults).  onProgress / onDetailedProgress are
modelled as the event trace of the state record instead of as stored
callbacks. -/
structure Options where
  maxRetries : ℕ
  initialRetryDelay : ℕ
  maxRetryDelay : ℕ
  batchSize : ℕ
  maxBandwidth : JSNum
  priorityWeights : Priority → ℤ

/-- The default priority weights set up by the constructor:
high 3, medium 2, low 1. -/
def defaultWeights : Priority → ℤ
  | Priority.high => 3
  | Priority.medium => 2
  | Priority.low => 1

/-- The constructor defaults: maxRetries 3, initialRetryDelay 1000,
maxRetryDelay 30000, batchSize 3, maxBandwidth Infinity, default weights. -/
def defaultOptions : Options :=
  { maxRetries := 3
    initialRetryDelay := 1000
    maxRetryDelay := 30000
    batchSize := 3
    maxBandwidth := JSNum.posInf
    priorityWeights := defaultWeights }

/-- setBandwidthLimit: overwrites options.maxBandwidth with the given
bytes-per-second value. -/
def setBandwidthLimit (opts : Options) (bytesPerSecond : JSNum) : Options :=
  { opts with maxBandwidth := bytesPerSecond }

/-- calculateRetryDelay from the source:
`Math.min(initialRetryDelay * Math.pow(2, attempt - 1), maxRetryDelay)`.
The source only calls it with attempt >= 1, so natural subtraction in the
exponent agrees with the JavaScript expression at every call site. -/
def calculateRetryDelay (opts : Options) (attempt : ℕ) : ℕ :=
  min (opts.initialRetryDelay * 2 ^ (attempt - 1)) opts.maxRetryDelay

/-- throttle from the source, as the delay in milliseconds imposed on a
chunk of the given byte length: when maxBandwidth is falsy (0 or NaN) or
strictly equals Infinity the promise resolves immediately (delay 0);
otherwise the delay is `(chunkSize / maxBandwidth) * 1000`.  For a
-Infinity limit the JavaScript expression yields -0, which setTimeout
treats as an immediate (0 ms) timeout, hence the 0 in that branch. -/
def throttle (maxBandwidth : JSNum) (chunkSize : ℚ) : ℚ :=
  match maxBandwidth with
  | JSNum.posInf => 0
  | JSNum.nan => 0
  | JSNum.negInf => 0
  | JSNum.fin b => if b = 0 then 0 else chunkSize / b * 1000

/-- The outcome of one uploadWithRetry call: the returned storage path or
the thrown error, together with the list of backoff delays awaited (one
entry per retry, in order) and the number of transfer attempts actually
started against the storage API. -/
structure RetryResult where
  result : Except JsError String
  delays : List ℕ
  attempts : ℕ

/-- The body of uploadWithRetry as a fuel-indexed loop.  Each entry
re-checks the paused / cancelled flags exactly as the source does at the
top of the method (throwing "Upload paused" when paused, else
"Upload cancelled" when cancelled, without consulting the storage API);
then one transfer is attempted through the oracle; a thrown pause or
cancellation message is re-thrown without retry; any other error is
retried after calculateRetryDelay attempt milliseconds while
`attempt < maxRetries`, and surfaced once that guard fails.  The fuel
argument only bounds the recursion; the wrapper below always supplies
enough fuel for the zero-fuel branch to be unreachable. -/
def uploadAttemptLoop (opts : Options) (paused cancelled : Bool)
    (oracle : ℕ → Except JsError String) : ℕ → ℕ → RetryResult
  | 0, _ => ⟨Except.error ⟨"OUT_OF_FUEL"⟩, [], 0⟩
  | fuel + 1, attempt =>
    if paused || cancelled then
      ⟨Except.error ⟨if paused then "Upload paused" else "Upload cancelled"⟩, [], 0⟩
    else
      match oracle attempt with
      | Except.ok p => ⟨Except.ok p, [], 1⟩
      | Except.error e =>
        if e.message == "Upload paused" || e.message == "Upload cancelled" then
          ⟨Except.error e, [], 1⟩
        else if attempt < opts.maxRetries then
          let d := calculateRetryDelay opts attempt
          let r := uploadAttemptLoop opts paused cancelled oracle fuel (attempt + 1)
          ⟨r.result, d :: r.delays, r.attempts + 1⟩
        else ⟨Except.error e, [], 1⟩

/-- uploadWithRetry from the source, for a fixed file and path: the oracle
gives the storage API outcome of the k-th attempt.  maxRetries + 1 units of
fuel always cover the longest possible attempt chain (attempts
attempt, attempt+1, ..., maxRetries). -/
def uploadWithRetry (opts : Options) (paused cancelled : Bool)
    (oracle : ℕ → Except JsError String) (attempt : ℕ) : RetryResult :=
  uploadAttemptLoop opts paused cancelled oracle (opts.maxRetries + 1) attempt

/-- The order in which the sortQueue comparator
`(a, b) => weights[b.priority] - weights[a.priority] || a.addedAt - b.addedAt`
lets a stay at or before b: strictly greater priority weight, or equal
weight and addedAt in non-decreasing order (FIFO tie-break). -/
def itemLe (w : Priority → ℤ) (a b : QueueItem) : Prop :=
  w b.priority < w a.priority ∨
    (w a.priority = w b.priority ∧ a.addedAt ≤ b.addedAt)

instance (w : Priority → ℤ) : DecidableRel (itemLe w) := fun a b => by
  unfold itemLe; infer_instance

/-- sortQueue from the source: a stable sort of the queue under the
comparator above, modelled as insertion sort (JavaScript Array.prototype.sort
is stable and the comparator is a total preorder test, so any stable sort
produces this list). -/
def sortQueue (w : Priority → ℤ) (q : List QueueItem) : List QueueItem :=
  List.insertionSort (itemLe w) q

/-- The queue contents right after addToQueue has pushed the new item and
called sortQueue (file-uploader.ts lines 240-254). -/
def addToQueueQueue (w : Priority → ℤ) (q : List QueueItem) (item : QueueItem) :
    List QueueItem :=
  sortQueue w (q ++ [item])

/-- The in-place mutation `item.priority = priority` performed by
setPriority on the first queue entry whose file name matches. -/
def updateFirst (fileId : String) (p : Priority) : List QueueItem → List QueueItem
  | [] => []
  | i :: rest =>
    if i.file.name = fileId then { i with priority := p } :: rest
    else i :: updateFirst fileId p rest

/-- setPriority from the source, restricted to its effect on the queue:
when `queue.find(i => i.file.name === fileId)` hits, the priority of that
(first matching) entry is overwritten and the queue re-sorted; otherwise
the queue is untouched. -/
def setPriorityQueue (w : Priority → ℤ) (q : List QueueItem)
    (fileId : String) (p : Priority) : List QueueItem :=
  if (q.find? (fun i => i.file.name == fileId)).isSome then
    sortQueue w (updateFirst fileId p q)
  else q

/-- A browser localStorage operation performed by the uploader.  saveState
serialises the whole upload state; the model records the storage key it
writes together with the overallProgress figure embedded in the stored
snapshot (the only stored value any claim is about). -/
inductive StorageEffect where
  | setItem (key : String) (overallProgress : JSNum)
  | removeItem (key : String)
deriving DecidableEq

/-- One onProgress / onDetailedProgress emission, reduced to the two fields
the claims mention: the status string and the overallProgress figure. -/
structure EmittedEvent where
  status : String
  overallProgress : JSNum
deriving DecidableEq

/-- The mutable fields of a FileUploader instance, plus three observation
traces: the storage paths returned by successful transfers (uploadLog), the
emitted progress events and the localStorage effects.  attemptsStarted
counts transfer attempts actually started against the storage API and
batchesTaken counts the batches spliced off the queue by processQueue;
batchesTaken also serves as the round index fed to the transfer oracle.
stateQueue is the uploadState.queue array the source maintains alongside
the sorted queue. -/
structure UState where
  opts : Options
  queue : List QueueItem
  stateQueue : List QueueItem
  uploading : Bool
  paused : Bool
  cancelled : Bool
  uploadedSize : ℕ
  totalSize : ℕ
  uploadLog : List String
  attemptsStarted : ℕ
  batchesTaken : ℕ
  events : List EmittedEvent
  effects : List StorageEffect

/-- The outcome of the hosted storage API: for a given round (batch number),
queue item and attempt number, the uploaded path or the thrown error. -/
abbrev Oracle := ℕ → QueueItem → ℕ → Except JsError String

/-- A freshly constructed FileUploader with the given resolved options:
empty queue, all flags down, zero sizes, empty traces. -/
def initState (opts : Options) : UState :=
  { opts := opts
    queue := []
    stateQueue := []
    uploading := false
    paused := false
    cancelled := false
    uploadedSize := 0
    totalSize := 0
    uploadLog := []
    attemptsStarted := 0
    batchesTaken := 0
    events := []
    effects := [] }

/-- saveState from the source: serialises the upload state (including the
unguarded overallProgress percentage) into localStorage under the key
"uploadState". -/
def saveState (st : UState) : UState :=
  { st with effects := st.effects ++
      [StorageEffect.setItem "uploadState"
        (savedOverallProgress st.uploadedSize st.totalSize)] }

/-- Record one progress emission in the event trace. -/
def emitEvent (st : UState) (ev : EmittedEvent) : UState :=
  { st with events := st.events ++ [ev] }

/-- One batch entry inside the Promise.all of processQueue: emit the
pre-upload progress event, run uploadWithRetry for the item, and on success
credit the file size, log the returned path, save state and emit the
post-upload event.  Returns the updated state and whether this entry
rejected.  The source updates uploadedSize and calls saveState inside
uploadWithRetry on success; the model performs the same updates here, once
per successful transfer, with identical net effect.  Promise.all runs every
entry to completion even when one rejects, so entries are processed
sequentially and a rejection only marks the batch failed. -/
def runItem (oracle : ℕ → Except JsError String) (st : UState)
    (item : QueueItem) : UState × Bool :=
  let st0 := emitEvent st
    ⟨"uploading", savedOverallProgress st.uploadedSize st.totalSize⟩
  let r := uploadWithRetry st0.opts st0.paused st0.cancelled oracle 1
  let st1 := { st0 with attemptsStarted := st0.attemptsStarted + r.attempts }
  match r.result with
  | Except.ok p =>
    let st2 := saveState
      { st1 with uploadedSize := st1.uploadedSize + item.file.size
                 uploadLog := st1.uploadLog ++ [p] }
    (emitEvent st2
      ⟨"uploading", savedOverallProgress st2.uploadedSize st2.totalSize⟩, false)
  | Except.error _ => (st1, true)

/-- The Promise.all over a spliced batch: runs every entry and reports
whether any of them rejected. -/
def runBatch (att : Oracle) (round : ℕ) :
    List QueueItem → UState → UState × Bool
  | [], st => (st, false)
  | item :: rest, st =>
    let p1 := runItem (att round item) st item
    let p2 := runBatch att round rest p1.1
    (p2.1, p1.2 || p2.2)

/-- One non-guarded round of processQueue: splice off a batch of batchSize
items (marking the uploading flag and counting the batch), run it through
Promise.all, and on any rejection push the whole batch back onto the front
of the queue (unless paused or cancelled meanwhile) and emit an error
event, while a fully successful round that drained the queue removes the
saved snapshot from localStorage. -/
def processRound (att : Oracle) (st : UState) : UState :=
  let batch := st.queue.take st.opts.batchSize
  let round := st.batchesTaken
  let st1 := { st with uploading := true
                       queue := st.queue.drop st.opts.batchSize
                       batchesTaken := st.batchesTaken + 1 }
  let p := runBatch att round batch st1
  let st2 := p.1
  if p.2 then
    let stq :=
      if !st2.cancelled && !st2.paused then
        { st2 with queue := batch ++ st2.queue }
      else st2
    emitEvent stq
      ⟨"error", savedOverallProgress stq.uploadedSize stq.totalSize⟩
  else if st2.queue.isEmpty then
    { st2 with effects := st2.effects ++ [StorageEffect.removeItem "uploadState"] }
  else st2

/-- processQueue from the source, running at most `fuel` rounds (the source
recursion has no intrinsic bound: a persistently failing batch is retried
forever, so the fuel argument selects how many rounds to observe).  Each
round: return at once (clearing the uploading flag) when the queue is empty
or the uploader is paused or cancelled; otherwise run one round and recurse
unless paused or cancelled. -/
def processQueue (att : Oracle) : ℕ → UState → UState
  | 0, st => st
  | fuel + 1, st =>
    if st.queue.isEmpty || st.paused || st.cancelled then
      { st with uploading := false }
    else
      let st3 := processRound att st
      if !st3.cancelled && !st3.paused then processQueue att fuel st3 else st3

/-- The public operations of a FileUploader.  Date.now() values and
localStorage availability are supplied as operation arguments: addToQueue
carries the timestamp of the new item and the fuel bound for the
processQueue run it may trigger, and resume carries whether loadState found
a saved snapshot. -/
inductive Op where
  | addToQueue (file : File) (path : String) (priority : Priority)
      (now : ℕ) (fuel : ℕ)
  | setPriority (fileId : String) (priority : Priority)
  | pauseOp
  | resumeOp (loadOk : Bool) (fuel : ℕ)
  | cancelOp
  | processQueueOp (fuel : ℕ)

/-- The transition function of the uploader.  addToQueue pushes the new
item onto both queues, adds its size to totalSize, sorts, saves state and
starts processQueue when not already uploading and not paused; setPriority
updates and re-sorts only when the lookup hits; pause raises the paused
flag; resume clears it and restarts processQueue when loadState succeeded;
cancel raises the cancelled flag, empties the queue and reports a cancelled
progress event with overallProgress 0 (the source never lowers the
cancelled flag again). -/
def step (att : Oracle) (st : UState) : Op → UState
  | Op.addToQueue f p pr now fuel =>
    let item : QueueItem := ⟨f, p, pr, now⟩
    let st1 := { st with queue := addToQueueQueue st.opts.priorityWeights st.queue item
                         stateQueue := st.stateQueue ++ [item]
                         totalSize := st.totalSize + f.size }
    let st2 := saveState st1
    if !st2.uploading && !st2.paused then processQueue att fuel st2 else st2
  | Op.setPriority fileId pr =>
    if (st.queue.find? (fun i => i.file.name == fileId)).isSome then
      saveState { st with queue := setPriorityQueue st.opts.priorityWeights st.queue fileId pr }
    else st
  | Op.pauseOp => { st with paused := true }
  | Op.resumeOp loadOk fuel =>
    let st1 := { st with paused := false }
    if loadOk then processQueue att fuel st1 else st1
  | Op.cancelOp =>
    { st with cancelled := true
              queue := []
              events := st.events ++ [⟨"cancelled", JSNum.fin 0⟩] }
  | Op.processQueueOp fuel => processQueue att fuel st

/-- Recognises a localStorage write of the saved upload state. -/
def isUploadStateWrite : StorageEffect → Bool
  | StorageEffect.setItem k _ => k == "uploadState"
  | StorageEffect.removeItem _ => false

/-- A concrete two-file scenario: a small image and a PDF page. -/
def fileA : File := ⟨"a.png", 10⟩

/-- Second concrete file of the scenario. -/
def fileB : File := ⟨"b.pdf", 20⟩

/-- The first file queued at high priority. -/
def itemA : QueueItem := ⟨fileA, "proj/a.png", Priority.high, 1⟩

/-- The second file queued at medium priority. -/
def itemB : QueueItem := ⟨fileB, "proj/b.pdf", Priority.medium, 2⟩

/-- A storage oracle for the scenario: in round 0 every attempt for the PDF
throws a network error while the image uploads at once; from round 1 on
every transfer succeeds. -/
def demoAtt : Oracle := fun round item _ =>
  if round == 0 && item.file.name == "b.pdf" then Except.error ⟨"NETWORK_ERROR"⟩
  else Except.ok item.path

/-- The scenario start state: both files already queued, nothing uploaded. -/
def demoState : UState :=
  { initState defaultOptions with
      queue := [itemA, itemB]
      stateQueue := [itemA, itemB]
      totalSize := 30 }

/-- Whether an upload outcome is a thrown error. -/
def isError : Except JsError String → Bool
  | Except.error _ => true
  | Except.ok _ => false

/-- A generic storage failure, unrelated to pause or cancellation. -/
def netErr : JsError := ⟨"NETWORK_ERROR"⟩

/-- A storage oracle for which every attempt fails with netErr. -/
def netFailOracle : ℕ → Except JsError String := fun _ => Except.error netErr

/-!  Theorems.  First the helper lemmas about the embedded operations, then
one theorem (plus counterexample / witness where required) per claim. -/

/-- C3 counterexample: the spec glossary requires a retryCount tag on every
queue entry, but the QueueItem record of the source has no such field. -/
theorem claim_C3_counterexample :
    "retryCount" ∈ specTagFields ∧ "retryCount" ∉ queueItemFields := by
  decide

/-- C3 (amended): every queue entry is tagged with a priority and with the
timestamp it was added at (addedAt); no retry count is stored on queue
entries (retry counts live in the uploadWithRetry attempt argument and in
the UploadError log instead). -/
theorem claim_C3_tags :
    ("priority" ∈ queueItemFields ∧ "addedAt" ∈ queueItemFields ∧
      "retryCount" ∉ queueItemFields) ∧
    ∀ (f : File) (p : String) (pr : Priority) (t : ℕ),
      (QueueItem.mk f p pr t).priority = pr ∧ (QueueItem.mk f p pr t).addedAt = t :=
  ⟨by decide, fun _ _ _ _ => ⟨rfl, rfl⟩⟩

/-- C4: with a finite positive bandwidth limit of B bytes per second, a
chunk of s bytes is delayed by exactly (s / B) * 1000 milliseconds; with an
Infinity or zero (unset) limit the chunk is not delayed; and
setBandwidthLimit installs the given limit. -/
theorem claim_C4_throttle (b s : ℚ) :
    (0 < b → throttle (JSNum.fin b) s = s / b * 1000) ∧
    throttle JSNum.posInf s = 0 ∧
    throttle (JSNum.fin 0) s = 0 ∧
    ∀ (opts : Options) (mb : JSNum), (setBandwidthLimit opts mb).maxBandwidth = mb := by
  refine ⟨fun hb => ?_, rfl, ?_, fun _ _ => rfl⟩
  · simp [throttle, hb.ne']
  · simp [throttle]

/-- C4 witness: a 10-byte chunk under a 2 bytes-per-second limit is delayed
(10 / 2) * 1000 = 5000 milliseconds. -/
theorem claim_C4_witness :
    throttle (JSNum.fin 2) 10 = 10 / 2 * 1000 :=
  (claim_C4_throttle 2 10).1 (by norm_num)

/-- C5 counterexample: at the default options every one of the first three
attempts is uncapped (4000 <= 30000), yet the increment between successive
retry delays is not constant: 2000 - 1000 differs from 4000 - 2000.  The
backoff of the source is therefore not linear. -/
theorem claim_C5_counterexample :
    calculateRetryDelay defaultOptions 2 - calculateRetryDelay defaultOptions 1 ≠
      calculateRetryDelay defaultOptions 3 - calculateRetryDelay defaultOptions 2 := by
  decide

/-- C5 (amended): the backoff is exponential, not linear: at every uncapped
attempt k >= 1 the delay before the next retry doubles,
delay(k+1) = 2 * delay(k). -/
theorem claim_C5_exponential (opts : Options) (k : ℕ) (hk : 1 ≤ k)
    (hcap : opts.initialRetryDelay * 2 ^ k ≤ opts.maxRetryDelay) :
    calculateRetryDelay opts (k + 1) = 2 * calculateRetryDelay opts k := by
  obtain ⟨m, rfl⟩ : ∃ m, k = m + 1 := ⟨k - 1, by omega⟩
  unfold calculateRetryDelay
  have h2 : opts.initialRetryDelay * 2 ^ m ≤ opts.maxRetryDelay :=
    le_trans (Nat.mul_le_mul_left _ (Nat.pow_le_pow_right (by norm_num) (by omega))) hcap
  simp only [Nat.add_sub_cancel]
  rw [Nat.min_eq_left hcap, Nat.min_eq_left h2, pow_succ]
  ring

/-- C5 witness: with the default options the third delay (4000 ms) is twice
the second (2000 ms). -/
theorem claim_C5_witness :
    calculateRetryDelay defaultOptions 3 = 2 * calculateRetryDelay defaultOptions 2 :=
  claim_C5_exponential defaultOptions 2 (by norm_num) (by decide)

/-- C9: the overall progress figure (uploadedSize / totalSize) * 100 has no
guard for totalSize = 0: with a zero total it is NaN (when nothing was
uploaded) or Infinity (otherwise), never a finite percentage, and saveState
stores exactly this unguarded figure in the persisted snapshot. -/
theorem claim_C9_division_unguarded (up : ℕ) :
    savedOverallProgress up 0 = (if up = 0 then JSNum.nan else JSNum.posInf) ∧
    (∀ q : ℚ, savedOverallProgress up 0 ≠ JSNum.fin q) ∧
    ∀ st : UState, (saveState st).effects = st.effects ++
      [StorageEffect.setItem "uploadState"
        (savedOverallProgress st.uploadedSize st.totalSize)] := by
  have h : savedOverallProgress up 0 = (if up = 0 then JSNum.nan else JSNum.posInf) := by
    unfold savedOverallProgress jsDiv jsMul
    by_cases h0 : up = 0
    · subst h0; simp
    · have hpos : (0 : ℚ) < (up : ℚ) := by exact_mod_cast Nat.pos_of_ne_zero h0
      have hne : (up : ℚ) ≠ 0 := ne_of_gt hpos
      simp [h0, hne, hpos]
  refine ⟨h, fun q => ?_, fun _ => rfl⟩
  rw [h]
  by_cases h0 : up = 0 <;> simp [h0]

/-- When every attempt from attempt a on fails with a non-pause,
non-cancellation error and enough fuel is supplied, the retry loop performs
attempts a, a+1, ..., maxRetries, waits calculateRetryDelay(k) before the
attempt that follows attempt k, and surfaces the error of the final
attempt. -/
theorem uploadAttemptLoop_allFail (opts : Options)
    (oracle : ℕ → Except JsError String) (e : ℕ → JsError)
    (hor : ∀ k, oracle k = Except.error (e k))
    (hmsg : ∀ k, (e k).message ≠ "Upload paused" ∧ (e k).message ≠ "Upload cancelled") :
    ∀ fuel a, 1 ≤ a → a ≤ opts.maxRetries → opts.maxRetries - a < fuel →
    uploadAttemptLoop opts false false oracle fuel a =
      ⟨Except.error (e opts.maxRetries),
       (List.range (opts.maxRetries - a)).map (fun i => calculateRetryDelay opts (a + i)),
       opts.maxRetries - a + 1⟩ := by
  intro fuel
  induction fuel with
  | zero => intro a _ _ hf; omega
  | succ fuel ih =>
    intro a ha haN hfuel
    have hb1 : ((e a).message == "Upload paused") = false :=
      beq_eq_false_iff_ne.mpr (hmsg a).1
    have hb2 : ((e a).message == "Upload cancelled") = false :=
      beq_eq_false_iff_ne.mpr (hmsg a).2
    rw [uploadAttemptLoop, if_neg (by simp), hor a]
    dsimp only
    rw [hb1, hb2, if_neg (by simp)]
    by_cases hlt : a < opts.maxRetries
    · rw [if_pos hlt, ih (a + 1) (by omega) (by omega) (by omega)]
      have hrange : (List.range (opts.maxRetries - a)).map
            (fun i => calculateRetryDelay opts (a + i)) =
          calculateRetryDelay opts a ::
            (List.range (opts.maxRetries - (a + 1))).map
              (fun i => calculateRetryDelay opts (a + 1 + i)) := by
        have hsub : opts.maxRetries - a = (opts.maxRetries - (a + 1)) + 1 := by omega
        rw [hsub, List.range_succ_eq_map, List.map_cons, List.map_map]
        refine congrArg₂ _ (by norm_num) (List.map_congr_left fun i _ => ?_)
        simp only [Function.comp_apply]
        congr 1
        omega
      dsimp only
      rw [hrange]
      simp only [RetryResult.mk.injEq, true_and]
      omega
    · have haeq : a = opts.maxRetries := by omega
      rw [if_neg hlt]
      subst haeq
      simp

/-- C1 counterexample: with the default options (maxRetries 3) and every
attempt failing with a network error, uploadWithRetry waits only twice, of
1000 ms and 2000 ms, before giving up: it retries maxRetries - 1 = 2 times,
not maxRetries = 3 times as the claim states. -/
theorem claim_C1_counterexample :
    (uploadWithRetry defaultOptions false false netFailOracle 1).delays.length ≠
      defaultOptions.maxRetries ∧
    (uploadWithRetry defaultOptions false false netFailOracle 1).delays = [1000, 2000] := by
  constructor
  · decide
  · decide

/-- C1 (amended): when the uploader is neither paused nor cancelled and
every attempt fails with an error other than pause or cancellation,
uploadWithRetry makes maxRetries attempts in total, i.e. retries
maxRetries - 1 times, waiting min(initialRetryDelay * 2^(k-1), maxRetryDelay)
milliseconds before the k-th retry, and then surfaces the error of the last
attempt to the caller. -/
theorem claim_C1_retry_count (opts : Options)
    (oracle : ℕ → Except JsError String) (e : ℕ → JsError)
    (hN : 1 ≤ opts.maxRetries)
    (hor : ∀ k, oracle k = Except.error (e k))
    (hmsg : ∀ k, (e k).message ≠ "Upload paused" ∧ (e k).message ≠ "Upload cancelled") :
    (uploadWithRetry opts false false oracle 1).result =
      Except.error (e opts.maxRetries) ∧
    (uploadWithRetry opts false false oracle 1).delays =
      (List.range (opts.maxRetries - 1)).map
        (fun i => min (opts.initialRetryDelay * 2 ^ i) opts.maxRetryDelay) ∧
    (uploadWithRetry opts false false oracle 1).delays.length =
      opts.maxRetries - 1 ∧
    (uploadWithRetry opts false false oracle 1).attempts = opts.maxRetries := by
  have h := uploadAttemptLoop_allFail opts oracle e hor hmsg
    (opts.maxRetries + 1) 1 le_rfl hN (by omega)
  unfold uploadWithRetry
  rw [h]
  refine ⟨rfl, ?_, by simp, by dsimp only; omega⟩
  refine List.map_congr_left fun i _ => ?_
  unfold calculateRetryDelay
  rw [show 1 + i - 1 = i from by omega]

/-- C1 witness: the amended statement evaluated at the default options with
a constant network error: the two backoff delays are 1000 and 2000 ms. -/
theorem claim_C1_witness :
    (uploadWithRetry defaultOptions false false netFailOracle 1).delays = [1000, 2000] := by
  have hm : netErr.message ≠ "Upload paused" ∧ netErr.message ≠ "Upload cancelled" := by
    decide
  exact ((claim_C1_retry_count defaultOptions netFailOracle (fun _ => netErr)
      (by decide) (fun _ => rfl) (fun _ => hm)).2.1).trans (by decide)

/-- C6: entering uploadWithRetry while paused throws "Upload paused" and
while cancelled (and not paused) throws "Upload cancelled", in both cases
without starting a transfer attempt; and an error whose message is
"Upload paused" or "Upload cancelled" is re-thrown at once, never retried,
whatever retry budget remains. -/
theorem claim_C6_pause_cancel (opts : Options)
    (oracle : ℕ → Except JsError String) (attempt : ℕ) :
    (∀ c : Bool, uploadWithRetry opts true c oracle attempt =
      ⟨Except.error ⟨"Upload paused"⟩, [], 0⟩) ∧
    uploadWithRetry opts false true oracle attempt =
      ⟨Except.error ⟨"Upload cancelled"⟩, [], 0⟩ ∧
    ∀ e : JsError, oracle attempt = Except.error e →
      e.message = "Upload paused" ∨ e.message = "Upload cancelled" →
      uploadWithRetry opts false false oracle attempt = ⟨Except.error e, [], 1⟩ := by
  refine ⟨fun c => ?_, ?_, fun e hor hmsg => ?_⟩
  · rw [uploadWithRetry, uploadAttemptLoop]
    simp
  · rw [uploadWithRetry, uploadAttemptLoop]
    simp
  · have hb : (e.message == "Upload paused" || e.message == "Upload cancelled") = true := by
      rcases hmsg with hm | hm <;> simp [hm]
    rw [uploadWithRetry, uploadAttemptLoop, if_neg (by simp), hor]
    dsimp only
    rw [if_pos hb]

/-- C6 witness: a thrown "Upload cancelled" error is surfaced after a single
attempt with no backoff delay, although two retries of budget remain. -/
theorem claim_C6_witness :
    uploadWithRetry defaultOptions false false
        (fun _ => Except.error ⟨"Upload cancelled"⟩) 1 =
      ⟨Except.error ⟨"Upload cancelled"⟩, [], 1⟩ :=
  (claim_C6_pause_cancel defaultOptions _ 1).2.2 ⟨"Upload cancelled"⟩ rfl (Or.inr rfl)

/-- The comparator order is total. -/
theorem itemLe_total (w : Priority → ℤ) (a b : QueueItem) :
    itemLe w a b ∨ itemLe w b a := by
  unfold itemLe
  rcases lt_trichotomy (w a.priority) (w b.priority) with h | h | h
  · exact Or.inr (Or.inl h)
  · rcases le_total a.addedAt b.addedAt with ht | ht
    · exact Or.inl (Or.inr ⟨h, ht⟩)
    · exact Or.inr (Or.inr ⟨h.symm, ht⟩)
  · exact Or.inl (Or.inl h)

/-- The comparator order is transitive. -/
theorem itemLe_trans (w : Priority → ℤ) (a b c : QueueItem) :
    itemLe w a b → itemLe w b c → itemLe w a c := by
  unfold itemLe
  rintro (h1 | ⟨h1, h1t⟩) (h2 | ⟨h2, h2t⟩)
  · exact Or.inl (lt_trans h2 h1)
  · exact Or.inl (h2 ▸ h1)
  · exact Or.inl (h1 ▸ h2)
  · exact Or.inr ⟨h1.trans h2, le_trans h1t h2t⟩

/-- sortQueue always yields a queue ordered by the comparator. -/
theorem sortQueue_pairwise (w : Priority → ℤ) (l : List QueueItem) :
    List.Pairwise (itemLe w) (sortQueue w l) := by
  letI : IsTotal QueueItem (itemLe w) := ⟨itemLe_total w⟩
  letI : IsTrans QueueItem (itemLe w) := ⟨itemLe_trans w⟩
  exact List.sorted_insertionSort (itemLe w) l

/-- In a comparator-ordered pair, the later item never has the strictly
larger weight, and ties are resolved by arrival time. -/
theorem itemLe_imp (w : Priority → ℤ) (a b : QueueItem) (h : itemLe w a b) :
    w b.priority ≤ w a.priority ∧
      (w a.priority = w b.priority → a.addedAt ≤ b.addedAt) := by
  rcases h with h | ⟨h1, h2⟩
  · exact ⟨le_of_lt h, fun he => absurd (he ▸ h) (lt_irrefl _)⟩
  · exact ⟨le_of_eq h1.symm, fun _ => h2⟩

/-- C2: after addToQueue has pushed its item and re-sorted, and after every
setPriority call whose file lookup hits, the queue is ordered by priority
weight: any item with a higher weight precedes any with a lower one, and
items of equal weight appear in non-decreasing order of the time they were
added. -/
theorem claim_C2_queue_sorted (w : Priority → ℤ) (q : List QueueItem)
    (item : QueueItem) (fileId : String) (p : Priority)
    (hfound : (q.find? (fun i => i.file.name == fileId)).isSome = true) :
    (addToQueueQueue w q item).Pairwise
      (fun a b => w b.priority ≤ w a.priority ∧
        (w a.priority = w b.priority → a.addedAt ≤ b.addedAt)) ∧
    (setPriorityQueue w q fileId p).Pairwise
      (fun a b => w b.priority ≤ w a.priority ∧
        (w a.priority = w b.priority → a.addedAt ≤ b.addedAt)) := by
  constructor
  · exact (sortQueue_pairwise w (q ++ [item])).imp (fun h => itemLe_imp w _ _ h)
  · unfold setPriorityQueue
    rw [if_pos hfound]
    exact (sortQueue_pairwise w (updateFirst fileId p q)).imp
      (fun h => itemLe_imp w _ _ h)

/-- C2 witness: the sortedness of both queues at a concrete two-item queue,
a concrete new low-priority item and a concrete priority change of the
entry named a.png. -/
theorem claim_C2_witness :
    (addToQueueQueue defaultWeights [itemA, itemB]
        ⟨⟨"c.png", 7⟩, "proj/c.png", Priority.low, 5⟩).Pairwise
      (fun a b => defaultWeights b.priority ≤ defaultWeights a.priority ∧
        (defaultWeights a.priority = defaultWeights b.priority →
          a.addedAt ≤ b.addedAt)) ∧
    (setPriorityQueue defaultWeights [itemA, itemB] "a.png" Priority.low).Pairwise
      (fun a b => defaultWeights b.priority ≤ defaultWeights a.priority ∧
        (defaultWeights a.priority = defaultWeights b.priority →
          a.addedAt ≤ b.addedAt)) :=
  claim_C2_queue_sorted defaultWeights [itemA, itemB]
    ⟨⟨"c.png", 7⟩, "proj/c.png", Priority.low, 5⟩ "a.png" Priority.low (by decide)

/-- What one Promise.all entry does to the state: the queue, the flags, the
options and the batch counter are untouched; the rejection flag reflects
the uploadWithRetry outcome; effects and the upload log only grow; and a
successful transfer logs its returned path. -/
theorem runItem_spec (o : ℕ → Except JsError String) (st : UState)
    (item : QueueItem) :
    ((runItem o st item).1.queue = st.queue ∧
     (runItem o st item).1.paused = st.paused ∧
     (runItem o st item).1.cancelled = st.cancelled ∧
     (runItem o st item).1.opts = st.opts ∧
     (runItem o st item).1.batchesTaken = st.batchesTaken) ∧
    (runItem o st item).2 =
      isError (uploadWithRetry st.opts st.paused st.cancelled o 1).result ∧
    (∃ l, (runItem o st item).1.effects = st.effects ++ l) ∧
    (∃ l, (runItem o st item).1.uploadLog = st.uploadLog ++ l) ∧
    ∀ p, (uploadWithRetry st.opts st.paused st.cancelled o 1).result = Except.ok p →
      p ∈ (runItem o st item).1.uploadLog := by
  unfold runItem emitEvent saveState
  dsimp only
  split
  · rename_i p heq
    refine ⟨⟨rfl, rfl, rfl, rfl, rfl⟩, ?_, ⟨_, rfl⟩, ⟨_, rfl⟩, ?_⟩
    · rw [heq]
      rfl
    · intro q hq
      rw [heq] at hq
      obtain rfl : p = q := by injection hq
      simp
  · rename_i e heq
    refine ⟨⟨rfl, rfl, rfl, rfl, rfl⟩, ?_, ⟨[], by simp⟩, ⟨[], by simp⟩, ?_⟩
    · rw [heq]
      rfl
    · intro q hq
      rw [heq] at hq
      exact Except.noConfusion hq

/-- What Promise.all over a whole batch does to the state: same preserved
fields as a single entry, the batch rejects exactly when some entry throws,
effects and the upload log only grow, and every path returned by a
successful entry is logged, even when another entry of the batch throws. -/
theorem runBatch_spec (att : Oracle) (round : ℕ) :
    ∀ (batch : List QueueItem) (st : UState),
    ((runBatch att round batch st).1.queue = st.queue ∧
     (runBatch att round batch st).1.paused = st.paused ∧
     (runBatch att round batch st).1.cancelled = st.cancelled ∧
     (runBatch att round batch st).1.opts = st.opts ∧
     (runBatch att round batch st).1.batchesTaken = st.batchesTaken) ∧
    ((runBatch att round batch st).2 = batch.any (fun i =>
      isError (uploadWithRetry st.opts st.paused st.cancelled (att round i) 1).result)) ∧
    (∃ l, (runBatch att round batch st).1.effects = st.effects ++ l) ∧
    (∃ l, (runBatch att round batch st).1.uploadLog = st.uploadLog ++ l) ∧
    ∀ i ∈ batch, ∀ p,
      (uploadWithRetry st.opts st.paused st.cancelled (att round i) 1).result =
        Except.ok p →
      p ∈ (runBatch att round batch st).1.uploadLog := by
  intro batch
  induction batch with
  | nil =>
    intro st
    refine ⟨⟨rfl, rfl, rfl, rfl, rfl⟩, rfl, ⟨[], by simp [runBatch]⟩,
      ⟨[], by simp [runBatch]⟩, ?_⟩
    intro i hi
    exact absurd hi (List.not_mem_nil i)
  | cons i rest ih =>
    intro st
    have h1 := runItem_spec (att round i) st i
    have h2 := ih (runItem (att round i) st i).1
    obtain ⟨⟨h1q, h1p, h1c, h1o, h1b⟩, h1f, ⟨l1e, h1e⟩, ⟨l1l, h1l⟩, h1m⟩ := h1
    obtain ⟨⟨h2q, h2p, h2c, h2o, h2b⟩, h2f, ⟨l2e, h2e⟩, ⟨l2l, h2l⟩, h2m⟩ := h2
    unfold runBatch
    dsimp only
    refine ⟨⟨h2q.trans h1q, h2p.trans h1p, h2c.trans h1c, h2o.trans h1o,
      h2b.trans h1b⟩, ?_, ⟨l1e ++ l2e, by rw [h2e, h1e, List.append_assoc]⟩,
      ⟨l1l ++ l2l, by rw [h2l, h1l, List.append_assoc]⟩, ?_⟩
    · rw [List.any_cons, h1f, h2f, h1o, h1p, h1c]
    · intro j hj p hp
      rcases List.mem_cons.mp hj with rfl | hj
      · have := h1m p hp
        rw [h2l]
        exact List.mem_append_left _ this
      · refine h2m j hj p ?_
        rw [h1o, h1p, h1c]
        exact hp

/-- A round whose batch has at least one throwing entry, run while neither
paused nor cancelled, restores the queue to exactly what it was before the
round (the whole spliced batch is pushed back in front of the remainder),
while the paths of the entries that succeeded are nevertheless logged as
uploaded. -/
theorem processRound_failed (att : Oracle) (st : UState)
    (hp : st.paused = false) (hc : st.cancelled = false)
    (hfail : (st.queue.take st.opts.batchSize).any (fun i =>
      isError (uploadWithRetry st.opts false false
        (att st.batchesTaken i) 1).result) = true) :
    (processRound att st).queue = st.queue ∧
    (processRound att st).paused = false ∧
    (processRound att st).cancelled = false ∧
    ∀ i ∈ st.queue.take st.opts.batchSize, ∀ p,
      (uploadWithRetry st.opts false false (att st.batchesTaken i) 1).result =
        Except.ok p →
      p ∈ (processRound att st).uploadLog := by
  obtain ⟨opts, queue, stateQueue, uploading, paused, cancelled, uploadedSize,
    totalSize, uploadLog, attemptsStarted, batchesTaken, events, effects⟩ := st
  dsimp only at hp hc hfail ⊢
  subst hp
  subst hc
  have h := runBatch_spec att batchesTaken (queue.take opts.batchSize)
    { opts := opts
      queue := queue.drop opts.batchSize
      stateQueue := stateQueue
      uploading := true
      paused := false
      cancelled := false
      uploadedSize := uploadedSize
      totalSize := totalSize
      uploadLog := uploadLog
      attemptsStarted := attemptsStarted
      batchesTaken := batchesTaken + 1
      events := events
      effects := effects }
  obtain ⟨⟨hq, hpp, hcc, _, _⟩, hf, _, _, hm⟩ := h
  dsimp only at hq hpp hcc hf hm
  have hfb := hf.trans hfail
  unfold processRound emitEvent
  dsimp only
  rw [hfb, if_pos (show (true : Bool) = true from rfl), hcc, hpp]
  rw [if_pos (show (!false && !false : Bool) = true from rfl)]
  dsimp only
  refine ⟨?_, rfl, rfl, fun i hi p hok => hm i hi p hok⟩
  rw [hq]
  exact List.take_append_drop _ _

/-- C8: when a batch contains at least one entry whose uploadWithRetry
throws while the uploader is neither paused nor cancelled, the round puts
the entire spliced batch back at the front of the queue, leaving the queue
exactly as it was, even though the paths of batch entries that succeeded
were already uploaded and logged; consequently a file added once can be
uploaded more than once, as the concrete two-file run shows: a.png is
uploaded twice although it was queued once. -/
theorem claim_C8_batch_requeued (att : Oracle) (st : UState)
    (hp : st.paused = false) (hc : st.cancelled = false) (hne : st.queue ≠ [])
    (hfail : (st.queue.take st.opts.batchSize).any (fun i =>
      isError (uploadWithRetry st.opts false false
        (att st.batchesTaken i) 1).result) = true) :
    ((processQueue att 1 st).queue = st.queue ∧
     ∀ i ∈ st.queue.take st.opts.batchSize, ∀ p,
       (uploadWithRetry st.opts false false (att st.batchesTaken i) 1).result =
         Except.ok p →
       p ∈ (processQueue att 1 st).uploadLog) ∧
    ((processQueue demoAtt 3 demoState).uploadLog.count "proj/a.png" = 2 ∧
     demoState.stateQueue.count itemA = 1) := by
  have hie : st.queue.isEmpty = false := by
    cases h : st.queue with
    | nil => exact absurd h hne
    | cons a l => rfl
  have hpq : processQueue att 1 st = processRound att st := by
    have h1 : processQueue att 1 st =
        if st.queue.isEmpty || st.paused || st.cancelled then
          { st with uploading := false }
        else if !(processRound att st).cancelled && !(processRound att st).paused then
          processRound att st
        else processRound att st := rfl
    rw [h1, hie, hp, hc, if_neg (by simp), ite_self]
  obtain ⟨hq, _, _, hm⟩ := processRound_failed att st hp hc hfail
  refine ⟨⟨?_, ?_⟩, by decide, by decide⟩
  · rw [hpq]
    exact hq
  · intro i hi p hok
    rw [hpq]
    exact hm i hi p hok

/-- C8 witness: the general requeue statement evaluated at the concrete
two-file scenario, in which the PDF fails all its attempts of the first
round: the queue after the round equals the queue before it. -/
theorem claim_C8_witness :
    (processQueue demoAtt 1 demoState).queue = demoState.queue :=
  (claim_C8_batch_requeued demoAtt demoState rfl rfl (by decide) (by decide)).1.1

/-- On a cancelled uploader, processQueue returns through its guard without
splicing a batch, starting a transfer or logging an upload, and leaves the
cancelled flag up. -/
theorem processQueue_cancelled (att : Oracle) (fuel : ℕ) (st : UState)
    (h : st.cancelled = true) :
    (processQueue att fuel st).cancelled = true ∧
    (processQueue att fuel st).uploadLog = st.uploadLog ∧
    (processQueue att fuel st).batchesTaken = st.batchesTaken ∧
    (processQueue att fuel st).attemptsStarted = st.attemptsStarted ∧
    (processQueue att fuel st).queue = st.queue := by
  cases fuel with
  | zero => exact ⟨h, rfl, rfl, rfl, rfl⟩
  | succ fuel =>
    have h1 : processQueue att (fuel + 1) st =
        if st.queue.isEmpty || st.paused || st.cancelled then
          { st with uploading := false }
        else if !(processRound att st).cancelled && !(processRound att st).paused then
          processQueue att fuel (processRound att st)
        else processRound att st := rfl
    rw [h1, h]
    simp only [Bool.or_true, eq_self_iff_true, if_true]
    exact ⟨trivial, trivial, trivial, trivial, trivial⟩

/-- Every public operation preserves a raised cancelled flag (nothing in
the source ever lowers it), and on a cancelled uploader no operation takes
a batch, starts a transfer or logs an upload. -/
theorem step_preserves_cancelled (att : Oracle) (st : UState) (op : Op)
    (h : st.cancelled = true) :
    (step att st op).cancelled = true ∧
    (step att st op).uploadLog = st.uploadLog ∧
    (step att st op).batchesTaken = st.batchesTaken ∧
    (step att st op).attemptsStarted = st.attemptsStarted := by
  cases op with
  | addToQueue f p pr now fuel =>
    unfold step saveState
    dsimp only
    split
    · have h2 := processQueue_cancelled att fuel
        (saveState { st with queue := addToQueueQueue st.opts.priorityWeights st.queue ⟨f, p, pr, now⟩
                             stateQueue := st.stateQueue ++ [⟨f, p, pr, now⟩]
                             totalSize := st.totalSize + f.size }) h
      exact ⟨h2.1, h2.2.1, h2.2.2.1, h2.2.2.2.1⟩
    · exact ⟨h, rfl, rfl, rfl⟩
  | setPriority fileId pr =>
    unfold step saveState
    dsimp only
    split
    · exact ⟨h, rfl, rfl, rfl⟩
    · exact ⟨h, rfl, rfl, rfl⟩
  | pauseOp => exact ⟨h, rfl, rfl, rfl⟩
  | resumeOp loadOk fuel =>
    unfold step
    dsimp only
    split
    · have h2 := processQueue_cancelled att fuel { st with paused := false } h
      exact ⟨h2.1, h2.2.1, h2.2.2.1, h2.2.2.2.1⟩
    · exact ⟨h, rfl, rfl, rfl⟩
  | cancelOp => exact ⟨rfl, rfl, rfl, rfl⟩
  | processQueueOp fuel =>
    have h2 := processQueue_cancelled att fuel st h
    exact ⟨h2.1, h2.2.1, h2.2.2.1, h2.2.2.2.1⟩

/-- Once the cancelled flag is up, no sequence of further operations ever
lowers it again, takes a batch, starts a transfer or logs an upload. -/
theorem run_cancelled (att : Oracle) :
    ∀ (ops : List Op) (st : UState), st.cancelled = true →
    ((ops.foldl (step att) st).cancelled = true ∧
     (ops.foldl (step att) st).uploadLog = st.uploadLog ∧
     (ops.foldl (step att) st).batchesTaken = st.batchesTaken ∧
     (ops.foldl (step att) st).attemptsStarted = st.attemptsStarted) := by
  intro ops
  induction ops with
  | nil => intro st h; exact ⟨h, rfl, rfl, rfl⟩
  | cons op ops ih =>
    intro st h
    have h1 := step_preserves_cancelled att st op h
    have h2 := ih (step att st op) h1.1
    exact ⟨h2.1, h2.2.1.trans h1.2.1, h2.2.2.1.trans h1.2.2.1,
      h2.2.2.2.trans h1.2.2.2⟩

/-- C10: cancel raises the cancelled flag, empties the queue and emits one
progress report with status cancelled and overallProgress 0; and whatever
operations follow, including further addToQueue and processQueue calls, the
flag stays up and no batch is ever spliced, no transfer attempt is ever
started and no upload is ever logged again on this instance. -/
theorem claim_C10_cancel_terminal (att : Oracle) (st : UState) (ops : List Op) :
    (step att st Op.cancelOp).cancelled = true ∧
    (step att st Op.cancelOp).queue = [] ∧
    (step att st Op.cancelOp).events =
      st.events ++ [⟨"cancelled", JSNum.fin 0⟩] ∧
    (ops.foldl (step att) (step att st Op.cancelOp)).cancelled = true ∧
    (ops.foldl (step att) (step att st Op.cancelOp)).uploadLog =
      (step att st Op.cancelOp).uploadLog ∧
    (ops.foldl (step att) (step att st Op.cancelOp)).batchesTaken =
      (step att st Op.cancelOp).batchesTaken ∧
    (ops.foldl (step att) (step att st Op.cancelOp)).attemptsStarted =
      (step att st Op.cancelOp).attemptsStarted := by
  have h := run_cancelled att ops (step att st Op.cancelOp) rfl
  exact ⟨rfl, rfl, rfl, h.1, h.2.1, h.2.2.1, h.2.2.2⟩

/-- A round only appends to the localStorage effect trace. -/
theorem processRound_effects (att : Oracle) (st : UState) :
    ∃ l, (processRound att st).effects = st.effects ++ l := by
  obtain ⟨l1, h1⟩ := (runBatch_spec att st.batchesTaken
    (st.queue.take st.opts.batchSize)
    { st with uploading := true
              queue := st.queue.drop st.opts.batchSize
              batchesTaken := st.batchesTaken + 1 }).2.2.1
  dsimp only at h1
  unfold processRound emitEvent
  dsimp only
  split
  · split
    · exact ⟨l1, h1⟩
    · exact ⟨l1, h1⟩
  · split
    · exact ⟨l1 ++ [StorageEffect.removeItem "uploadState"],
        by rw [h1, List.append_assoc]⟩
    · exact ⟨l1, h1⟩

/-- processQueue only appends to the localStorage effect trace. -/
theorem processQueue_effects (att : Oracle) :
    ∀ (fuel : ℕ) (st : UState),
    ∃ l, (processQueue att fuel st).effects = st.effects ++ l := by
  intro fuel
  induction fuel with
  | zero => intro st; exact ⟨[], by simp [processQueue]⟩
  | succ fuel ih =>
    intro st
    have h1 : processQueue att (fuel + 1) st =
        if st.queue.isEmpty || st.paused || st.cancelled then
          { st with uploading := false }
        else if !(processRound att st).cancelled && !(processRound att st).paused then
          processQueue att fuel (processRound att st)
        else processRound att st := rfl
    rw [h1]
    split
    · exact ⟨[], by simp⟩
    · split
      · obtain ⟨l2, hpr⟩ := processRound_effects att st
        obtain ⟨l3, hq⟩ := ih (processRound att st)
        exact ⟨l2 ++ l3, by rw [hq, hpr, List.append_assoc]⟩
      · exact processRound_effects att st

/-- C7 counterexample: a single addToQueue call on a fresh (paused)
uploader already writes the serialised queue and progress state to browser
localStorage, durable storage that outlives the session: the effect trace
contains a setItem of the key uploadState. -/
theorem claim_C7_counterexample :
    ((step demoAtt { initState defaultOptions with paused := true }
        (Op.addToQueue fileA "proj/a.png" Priority.medium 1 1)).effects).any
      isUploadStateWrite = true := by
  decide

/-- C7 (amended): queue state does not stay only in memory: every
addToQueue call and every setPriority call that finds its target persists a
snapshot of the queue and progress state to browser localStorage under the
key uploadState (via saveState), and resume reads it back (loadState). -/
theorem claim_C7_saves_to_localStorage (att : Oracle) (st : UState) (f : File)
    (p : String) (pr : Priority) (now fuel : ℕ) (fileId : String) (pr2 : Priority)
    (hfound : (st.queue.find? (fun i => i.file.name == fileId)).isSome = true) :
    ((step att st (Op.addToQueue f p pr now fuel)).effects).any
      isUploadStateWrite = true ∧
    ((step att st (Op.setPriority fileId pr2)).effects).any
      isUploadStateWrite = true := by
  constructor
  · unfold step saveState
    dsimp only
    split
    · obtain ⟨l, hl⟩ := processQueue_effects att fuel
        { st with queue := addToQueueQueue st.opts.priorityWeights st.queue ⟨f, p, pr, now⟩
                  stateQueue := st.stateQueue ++ [⟨f, p, pr, now⟩]
                  totalSize := st.totalSize + f.size
                  effects := st.effects ++
                    [StorageEffect.setItem "uploadState"
                      (savedOverallProgress st.uploadedSize (st.totalSize + f.size))] }
      dsimp only at hl
      rw [hl]
      simp [List.any_append, isUploadStateWrite]
    · simp [List.any_append, isUploadStateWrite]
  · unfold step saveState
    dsimp only
    rw [if_pos hfound]
    simp [List.any_append, isUploadStateWrite]

/-- C7 witness: at the concrete two-file state, both a new addToQueue call
and a setPriority call on a.png leave a localStorage write of the key
uploadState in the effect trace. -/
theorem claim_C7_witness :
    ((step demoAtt demoState
        (Op.addToQueue fileB "proj/b2.pdf" Priority.low 9 0)).effects).any
      isUploadStateWrite = true ∧
    ((step demoAtt demoState (Op.setPriority "a.png" Priority.low)).effects).any
      isUploadStateWrite = true :=
  claim_C7_saves_to_localStorage demoAtt demoState fileB "proj/b2.pdf"
    Priority.low 9 0 "a.png" Priority.low (by decide)

end ProjectPal
